import Mathlib

set_option maxRecDepth 100000

/-!
Verification of the SSE streaming client and its UI consumer.

The definitions below are a shallow embedding of the two source files:
* the API client (`sendMessageStream`): buffers raw chunks, splits complete
  lines, parses `data: ` frames as JSON event envelopes, and dispatches
  per-kind callbacks;
* the Consumer (chat UI): turns the callback sequence into message-list
  state transitions keyed by a client-generated temporary identifier.
-/

mutual

/-- A model of JavaScript JSON values, as produced by `JSON.parse`
(arrays are omitted: no payload in this development is an array).
Object fields are an association list (keys in textual order). -/
inductive Json where
  | null : Json
  | bool (b : Bool) : Json
  | num (n : Int) : Json
  | str (s : String) : Json
  | obj (fields : JsonFields) : Json

/-- The field list of a JSON object. -/
inductive JsonFields where
  | nil : JsonFields
  | cons (key : String) (value : Json) (rest : JsonFields) : JsonFields

end

deriving instance DecidableEq for Json
deriving instance DecidableEq for JsonFields

/-- Key lookup in an object's field list. -/
def JsonFields.lookup : JsonFields → String → Option Json
  | .nil, _ => none
  | .cons k v rest, key => if k = key then some v else rest.lookup key

/-- Property access `j.k` on a parsed value: defined only on objects,
`undefined` (here `none`) otherwise or when the key is absent. -/
def getField : Json → String → Option Json
  | .obj fields, k => fields.lookup k
  | _, _ => none

/-- One observable callback invocation made by `sendMessageStream`.
The payload is the envelope's `data` property, which may be absent
(JavaScript `undefined`), hence `Option Json`; `onThinking` is invoked
with no argument. -/
inductive Callback where
  | user_message (d : Option Json)
  | thinking
  | content (d : Option Json)
  | complete (d : Option Json)
  | error (d : Option Json)
deriving DecidableEq

/-- One step of splitting a character stream into lines, front char first:
a newline closes the current line; any other character is prepended to the
first complete line if one exists, otherwise to the trailing segment. -/
def lsCons (c : Char) (p : List (List Char) × List Char) :
    List (List Char) × List Char :=
  if c = '\n' then ([] :: p.1, p.2)
  else
    match p.1 with
    | [] => ([], c :: p.2)
    | l :: ls => ((c :: l) :: ls, p.2)

/-- `buffer.split('\n')` followed by `lines.pop()`: the first component is
the list of fully terminated lines (in order), the second the trailing
segment after the last newline (the retained buffer). -/
def lineSplit : List Char → List (List Char) × List Char
  | [] => ([], [])
  | c :: cs => lsCons c (lineSplit cs)

/-- The SSE data marker `"data: "` that a line must start with to be a
candidate frame. -/
def dataMarker : List Char := ("data: ").data

/-- JavaScript `String.prototype.trim`: strip whitespace at both ends. -/
def trimChars (l : List Char) : List Char :=
  ((l.dropWhile Char.isWhitespace).reverse.dropWhile Char.isWhitespace).reverse

/-- The payload of a candidate frame line: `line.slice(6).trim()`. -/
def payloadOf (line : List Char) : List Char := trimChars (line.drop 6)

/-- The literal stream-finished sentinel `[DONE]`. -/
def doneTok : List Char := ("[DONE]").data

/-- Recognition of a parsed envelope (the `switch (event.event)` statement):
a recognized kind yields the callback carrying `event.data` (possibly
absent); the `default` branch (unknown kind, or `event.event` not a string)
yields no callback. -/
def recognize (j : Json) : Option Callback :=
  match getField j "event" with
  | some (.str k) =>
      if k = "user_message" then some (.user_message (getField j "data"))
      else if k = "thinking" then some .thinking
      else if k = "content" then some (.content (getField j "data"))
      else if k = "complete" then some (.complete (getField j "data"))
      else if k = "error" then some (.error (getField j "data"))
      else none
  | _ => none

/-- Whether a parsed envelope's `event` property is one of the five
recognized kinds. -/
def recognizedKind (j : Json) : Bool :=
  match getField j "event" with
  | some (.str k) =>
      k == "user_message" || k == "thinking" || k == "content" ||
        k == "complete" || k == "error"
  | _ => false

/-- Handling of one frame payload: the `[DONE]` sentinel produces no event;
an unparsable payload (`JSON.parse` throws, modelled by `parse` returning
`none`) is skipped; otherwise the envelope is recognized. -/
def handleData (parse : List Char → Option Json) (d : List Char) :
    Option Callback :=
  if d = doneTok then none
  else
    match parse d with
    | none => none
    | some j => recognize j

/-- Processing of one complete line: only lines starting with the data
marker are candidate frames; others produce no callback. -/
def processLine (parse : List Char → Option Json) (line : List Char) :
    Option Callback :=
  if dataMarker.isPrefixOf line then handleData parse (payloadOf line)
  else none

/-- Dispatching a list of complete lines in order: each line yields at most
one callback invocation. -/
def dispatchLines (parse : List Char → Option Json)
    (lines : List (List Char)) : List Callback :=
  lines.filterMap (processLine parse)

/-- One iteration of the read loop on a delivered chunk: append the chunk
to the pending buffer, split on the line terminator, keep the trailing
(possibly incomplete) segment as the new buffer, and dispatch the fully
terminated lines.  The state is `(buffer, callback trace so far)`. -/
def chunkStep (parse : List Char → Option Json)
    (st : List Char × List Callback) (chunk : List Char) :
    List Char × List Callback :=
  ((lineSplit (st.1 ++ chunk)).2,
    st.2 ++ dispatchLines parse (lineSplit (st.1 ++ chunk)).1)

/-- The read loop of `sendMessageStream` over the delivered chunks of a
(successful) response body, starting from an empty buffer: the resulting
callback invocation trace.  On `done` the loop breaks, so a trailing
non-terminated buffer is never dispatched. -/
def runStream (parse : List Char → Option Json)
    (chunks : List (List Char)) : List Callback :=
  (chunks.foldl (chunkStep parse) ([], [])).2

/-- The frames of a raw stream, declaratively: the fully terminated lines
of the whole text, each parsed and dispatched. -/
def framesOf (parse : List Char → Option Json)
    (chunks : List (List Char)) : List Callback :=
  dispatchLines parse (lineSplit chunks.flatten).1

/-- A JavaScript `Error` as seen by the `.catch` handler: its `name`
(`"AbortError"` for a cancellation-induced rejection) and `message`. -/
structure JsError where
  name : String
  message : String
deriving DecidableEq

/-- One complete transport interaction for a send: the body chunks that
were delivered and processed, and how the promise chain ended — `none`
for a clean end of stream, `some e` for a rejection with error `e` after
the delivered chunks. -/
structure TransportRun where
  chunks : List (List Char)
  ending : Option JsError
deriving DecidableEq

/-- The `{ message: error.message }` object passed to `onError` by the
`.catch` handler. -/
def errPayload (m : String) : Json :=
  .obj (.cons "message" (.str m) .nil)

/-- The full observable callback trace of `sendMessageStream` on one
transport run: the read loop's trace, followed by the `.catch` handler's
contribution — nothing if the rejection is an `AbortError` (cancellation),
otherwise a single `error` callback carrying the failure message. -/
def sendMessageStreamRun (parse : List Char → Option Json)
    (t : TransportRun) : List Callback :=
  runStream parse t.chunks ++
    match t.ending with
    | none => []
    | some e =>
        if e.name = "AbortError" then []
        else [.error (some (errPayload e.message))]

/-- The rejection produced by `AbortController.abort()` on the pending
fetch/read. -/
def abortErr : JsError := ⟨"AbortError", "The user aborted a request."⟩

/-- Modelled from the spec: the effect of calling the handle's `abort()`
after `k` chunks of a run have been processed (the `AbortController` /
`fetch` cancellation contract, a platform primitive not part of this
repository).  If the stream is still in flight the remaining chunks are
discarded and the promise chain rejects with an `AbortError`; if the run
has already delivered all its chunks, aborting is a no-op. -/
def abortAt (t : TransportRun) (k : Nat) : TransportRun :=
  if k < t.chunks.length then ⟨t.chunks.take k, some abortErr⟩ else t

/-- A server-persisted message payload (`user_message` and `complete`
frames): `{ id, content, timestamp }`. -/
structure SrvMsg where
  id : String
  content : String
  timestamp : String
deriving DecidableEq

/-- The five frame kinds with their kind-specific payloads, as consumed by
the UI callbacks. -/
inductive ChatEvent where
  | user_message (d : SrvMsg)
  | thinking
  | content (text : String)
  | complete (d : SrvMsg)
  | error (message : String)
deriving DecidableEq

/-- The role of a UI-visible message. -/
inductive Role where
  | user
  | assistant
deriving DecidableEq

/-- A UI-visible message; `isThinking` is the placeholder flag (absent in
the source for ordinary messages, modelled as `false`). -/
structure Message where
  id : String
  role : Role
  content : String
  timestamp : String
  isThinking : Bool
deriving DecidableEq

/-- Whether a message is an assistant message. -/
def isAsst (m : Message) : Bool :=
  match m.role with
  | .assistant => true
  | .user => false

/-- The Consumer's state touched by the stream callbacks: the message
list, the error banner, and the streaming flag. -/
structure ConsumerState where
  messages : List Message
  errorMsg : Option String
  isStreaming : Bool
deriving DecidableEq

/-- The `onUserMessage` callback: append the confirmed user message. -/
def onUserMessage (d : SrvMsg) (prev : List Message) : List Message :=
  prev ++ [⟨d.id, .user, d.content, d.timestamp, false⟩]

/-- The `onThinking` callback: append the thinking placeholder keyed by
the temporary identifier. -/
def onThinking (tmp now : String) (prev : List Message) : List Message :=
  prev ++ [⟨tmp, .assistant, "", now, true⟩]

/-- The `onContent` callback: drop a thinking placeholder with the
temporary identifier, then either extend the existing temporary message
with the new fragment or append a fresh temporary message holding it. -/
def onContent (tmp now text : String) (prev : List Message) :
    List Message :=
  let filtered := prev.filter (fun m => !(m.id == tmp) || !m.isThinking)
  match filtered.find? (fun m => m.id == tmp) with
  | some _ =>
      filtered.map (fun m =>
        if m.id == tmp then { m with content := m.content ++ text } else m)
  | none => filtered ++ [⟨tmp, .assistant, text, now, false⟩]

/-- The `onComplete` callback: remove every message with the temporary
identifier and append the authoritative final assistant message. -/
def onComplete (tmp : String) (d : SrvMsg) (prev : List Message) :
    List Message :=
  prev.filter (fun m => !(m.id == tmp)) ++
    [⟨d.id, .assistant, d.content, d.timestamp, false⟩]

/-- The `onError` callback's message-list part: remove every message with
the temporary identifier. -/
def onError (tmp : String) (prev : List Message) : List Message :=
  prev.filter (fun m => !(m.id == tmp))

/-- One Consumer state transition for one received frame, as installed by
`handleSendMessage` (`tmp` is the client-generated temporary identifier,
`now` the wall-clock timestamp used for placeholder messages). -/
def consumerStep (tmp now : String) (st : ConsumerState) (e : ChatEvent) :
    ConsumerState :=
  match e with
  | .user_message d => { st with messages := onUserMessage d st.messages }
  | .thinking => { st with messages := onThinking tmp now st.messages }
  | .content t => { st with messages := onContent tmp now t st.messages }
  | .complete d =>
      { st with messages := onComplete tmp d st.messages,
                isStreaming := false }
  | .error m =>
      { messages := onError tmp st.messages,
        errorMsg := some ("Failed to send message: " ++ m),
        isStreaming := false }

/-- Applying a frame sequence to a Consumer state, one transition per
frame, in arrival order. -/
def runConsumer (tmp now : String) (st : ConsumerState)
    (es : List ChatEvent) : ConsumerState :=
  es.foldl (consumerStep tmp now) st

/-- Whether a frame is terminal (`complete` or `error`). -/
def isTermEv : ChatEvent → Bool
  | .complete _ => true
  | .error _ => true
  | _ => false

/-- Whether a frame is a `content` frame. -/
def isContentEv : ChatEvent → Bool
  | .content _ => true
  | _ => false

/-- The user messages appended by a frame sequence. -/
def userMsgsOf (es : List ChatEvent) : List Message :=
  es.filterMap (fun e =>
    match e with
    | .user_message d => some ⟨d.id, .user, d.content, d.timestamp, false⟩
    | _ => none)

/-- Whether a callback invocation is the `user_message` callback. -/
def isUserCb : Callback → Bool
  | .user_message _ => true
  | _ => false

/-- Whether a callback invocation is the `thinking` callback. -/
def isThinkCb : Callback → Bool
  | .thinking => true
  | _ => false

/-- Whether a callback invocation is the `content` callback. -/
def isContentCb : Callback → Bool
  | .content _ => true
  | _ => false

/-- Whether a callback invocation is terminal (`complete` or `error`). -/
def isTerminalCb : Callback → Bool
  | .complete _ => true
  | .error _ => true
  | _ => false

/-- The canonical rank of a callback kind: `user_message` before
`thinking` before `content` before a terminal. -/
def rk : Callback → Nat
  | .user_message _ => 0
  | .thinking => 1
  | .content _ => 2
  | .complete _ => 3
  | .error _ => 3

/-- No `thinking` invocation occurs after a `content` invocation. -/
def noThinkAfterContent : List Callback → Bool
  | [] => true
  | c :: cs =>
      ((!isContentCb c) || !(cs.any isThinkCb)) && noThinkAfterContent cs

/-- The stream invariant on a frame/callback sequence: at most one
`user_message`, at most one terminal, at most one `thinking`, and
`thinking` only before the first `content`. -/
def wfB (l : List Callback) : Bool :=
  decide (l.countP isUserCb ≤ 1) && decide (l.countP isTerminalCb ≤ 1) &&
    decide (l.countP isThinkCb ≤ 1) && noThinkAfterContent l

/-- The sequence's kinds appear in the canonical relative order
`user_message`, `thinking`, `content`*, terminal (ranks non-decreasing). -/
def monoB : List Callback → Bool
  | [] => true
  | [_] => true
  | a :: b :: t => decide (rk a ≤ rk b) && monoB (b :: t)

/-- JSON text of a `user_message` envelope. -/
def txtUM : String :=
  "\x7b\"event\":\"user_message\",\"data\":\x7b\"id\":\"m1\",\"content\":\"Hello\",\"timestamp\":\"T1\"\x7d\x7d"

/-- Parsed value of `txtUM`. -/
def jUM : Json :=
  .obj (.cons "event" (.str "user_message")
    (.cons "data" (.obj (.cons "id" (.str "m1")
      (.cons "content" (.str "Hello")
        (.cons "timestamp" (.str "T1") .nil)))) .nil))

/-- JSON text of a `thinking` envelope. -/
def txtTk : String := "\x7b\"event\":\"thinking\",\"data\":\x7b\x7d\x7d"

/-- Parsed value of `txtTk`. -/
def jTk : Json :=
  .obj (.cons "event" (.str "thinking")
    (.cons "data" (.obj .nil) .nil))

/-- JSON text of a first `content` envelope. -/
def txtC1 : String :=
  "\x7b\"event\":\"content\",\"data\":\x7b\"content\":\"Hi \"\x7d\x7d"

/-- Parsed value of `txtC1`. -/
def jC1 : Json :=
  .obj (.cons "event" (.str "content")
    (.cons "data" (.obj (.cons "content" (.str "Hi ") .nil)) .nil))

/-- JSON text of a second `content` envelope. -/
def txtC2 : String :=
  "\x7b\"event\":\"content\",\"data\":\x7b\"content\":\"there\"\x7d\x7d"

/-- Parsed value of `txtC2`. -/
def jC2 : Json :=
  .obj (.cons "event" (.str "content")
    (.cons "data" (.obj (.cons "content" (.str "there") .nil)) .nil))

/-- JSON text of a `complete` envelope. -/
def txtComp : String :=
  "\x7b\"event\":\"complete\",\"data\":\x7b\"id\":\"m2\",\"content\":\"Hi there\",\"timestamp\":\"T2\"\x7d\x7d"

/-- Parsed value of `txtComp`. -/
def jComp : Json :=
  .obj (.cons "event" (.str "complete")
    (.cons "data" (.obj (.cons "id" (.str "m2")
      (.cons "content" (.str "Hi there")
        (.cons "timestamp" (.str "T2") .nil)))) .nil))

/-- JSON text of an `error` envelope. -/
def txtErr : String :=
  "\x7b\"event\":\"error\",\"data\":\x7b\"message\":\"boom\"\x7d\x7d"

/-- Parsed value of `txtErr`. -/
def jErr : Json :=
  .obj (.cons "event" (.str "error")
    (.cons "data" (.obj (.cons "message" (.str "boom") .nil)) .nil))

/-- JSON text of an envelope with an unrecognized kind. -/
def txtPing : String := "\x7b\"event\":\"ping\",\"data\":\x7b\x7d\x7d"

/-- Parsed value of `txtPing`. -/
def jPing : Json :=
  .obj (.cons "event" (.str "ping")
    (.cons "data" (.obj .nil) .nil))

/-- A payload that is not valid JSON. -/
def txtBad : String := "\x7bnot json"

/-- Modelled from the spec: the platform `JSON.parse` primitive (not part
of this repository), restricted to the finite set of payload texts used in
concrete witnesses; each listed text is valid JSON mapping to its parsed
value, and every unlisted input — in particular `txtBad`, which is not
valid JSON — is treated as unparsable (`JSON.parse` throws, here `none`).
Universally quantified theorems below hold for an arbitrary parse
function; this table only instantiates them. -/
def demoParse (s : List Char) : Option Json :=
  if s = txtUM.data then some jUM
  else if s = txtTk.data then some jTk
  else if s = txtC1.data then some jC1
  else if s = txtC2.data then some jC2
  else if s = txtComp.data then some jComp
  else if s = txtErr.data then some jErr
  else if s = txtPing.data then some jPing
  else none

/-- A complete frame line (terminated) for a given payload text. -/
def frameLine (payload : String) : String := "data: " ++ payload ++ "\n"

/-- Concatenation of a list of text fragments, in order. -/
def joinS : List String → String
  | [] => ""
  | s :: rest => s ++ joinS rest

/-- A complete data line (as emitted by the splitter, no terminator)
carrying the `user_message` envelope. -/
def dlUM : List Char := ("data: " ++ txtUM).data

/-- A complete data line carrying the `thinking` envelope. -/
def dlTk : List Char := ("data: " ++ txtTk).data

/-- A complete data line carrying the first `content` envelope. -/
def dlC1 : List Char := ("data: " ++ txtC1).data

/-- A complete data line carrying the second `content` envelope. -/
def dlC2 : List Char := ("data: " ++ txtC2).data

/-- A complete data line carrying the `complete` envelope. -/
def dlComp : List Char := ("data: " ++ txtComp).data

/-- A complete data line carrying the unrecognized `ping` envelope. -/
def dlPing : List Char := ("data: " ++ txtPing).data

/-- A complete data line whose payload is not valid JSON. -/
def dlBad : List Char := ("data: " ++ txtBad).data

/-- A well-formed stream (one chunk) whose frames are `content` then
`user_message`: it satisfies the stream invariant but its frames are not
in the canonical relative order and it has no terminal frame. -/
def cChunksC1 : List (List Char) := [(frameLine txtC1 ++ frameLine txtUM).data]

/-- A canonical stream delivered as two chunks split in the middle of the
`thinking` frame line. -/
def wChunksC1 : List (List Char) :=
  [("data: " ++ txtUM ++ "\nda").data,
    ("ta: " ++ txtTk ++ "\n" ++ frameLine txtC1 ++ frameLine txtComp).data]

/-- An initial Consumer state whose list holds one non-temporary
`isThinking` assistant message whose content happens to equal the content
of the final message of `cexComplete`. -/
def cexInit : ConsumerState :=
  ⟨[⟨"x", .assistant, "Hi", "T0", true⟩], none, true⟩

/-- The `complete` payload used by the C3 counterexample: its content
coincides with an existing assistant message's content and its server id
coincides with the temporary identifier. -/
def cexComplete : SrvMsg := ⟨"temp-1", "Hi", "T2"⟩

/-- A transport run delivering a `user_message` frame and then a
`complete` frame as two chunks, ending cleanly. -/
def wRunC7 : TransportRun :=
  ⟨[(frameLine txtUM).data, (frameLine txtComp).data], none⟩

/-- The body of the specification's scenario: `user_message`, `thinking`,
then two `content` fragments. -/
def wBodyC3 : List ChatEvent :=
  [.user_message ⟨"m1", "Hello", "T1"⟩, .thinking,
    .content "Hi ", .content "there"]

/-- The final `complete` payload of the specification's scenario. -/
def wCompC3 : SrvMsg := ⟨"m2", "Hi there", "T2"⟩

theorem lineSplit_append (a b : List Char) :
    lineSplit (a ++ b) =
      ((lineSplit a).1 ++ (lineSplit ((lineSplit a).2 ++ b)).1,
        (lineSplit ((lineSplit a).2 ++ b)).2) := by
  induction a with
  | nil => simp [lineSplit]
  | cons c a ih =>
    simp only [List.cons_append, lineSplit, List.append_eq]
    rw [ih]
    by_cases hc : c = '\n'
    · simp [lsCons, hc]
    · rcases h : lineSplit a with ⟨la, ta⟩
      cases la with
      | nil =>
        simp only [lsCons, if_neg hc, List.nil_append]
        simp [lineSplit, lsCons, if_neg hc]
      | cons l ls =>
        simp [lsCons, if_neg hc]

theorem lineSplit_noNl {t : List Char} (h : ∀ c ∈ t, c ≠ '\n') :
    lineSplit t = ([], t) := by
  induction t with
  | nil => rfl
  | cons c cs ih =>
    have hc : c ≠ '\n' := h c (List.mem_cons_self c cs)
    have hcs : lineSplit cs = ([], cs) :=
      ih (fun x hx => h x (List.mem_cons_of_mem c hx))
    simp [lineSplit, hcs, lsCons, hc]

theorem noNl_lineSplit_snd (s : List Char) :
    ∀ c ∈ (lineSplit s).2, c ≠ '\n' := by
  induction s with
  | nil => simp [lineSplit]
  | cons c cs ih =>
    simp only [lineSplit]
    rcases h : lineSplit cs with ⟨ls, t⟩
    rw [h] at ih
    by_cases hc : c = '\n'
    · simpa [lsCons, hc] using ih
    · cases ls with
      | nil =>
        simp only [lsCons, if_neg hc]
        intro x hx
        rcases List.mem_cons.mp hx with rfl | hx
        · exact hc
        · exact ih x hx
      | cons l ls' =>
        simpa [lsCons, if_neg hc] using ih

theorem foldl_chunkStep (parse : List Char → Option Json)
    (chunks : List (List Char)) :
    ∀ (buf : List Char) (out : List Callback), (∀ c ∈ buf, c ≠ '\n') →
      chunks.foldl (chunkStep parse) (buf, out) =
        ((lineSplit (buf ++ chunks.flatten)).2,
          out ++ dispatchLines parse (lineSplit (buf ++ chunks.flatten)).1) := by
  induction chunks with
  | nil =>
    intro buf out h
    simp [lineSplit_noNl h, dispatchLines]
  | cons ch rest ih =>
    intro buf out h
    rw [List.foldl_cons,
      show chunkStep parse (buf, out) ch =
        ((lineSplit (buf ++ ch)).2,
          out ++ dispatchLines parse (lineSplit (buf ++ ch)).1) from rfl,
      ih _ _ (noNl_lineSplit_snd (buf ++ ch)),
      show buf ++ (ch :: rest).flatten = (buf ++ ch) ++ rest.flatten by simp,
      lineSplit_append (buf ++ ch) rest.flatten]
    simp [dispatchLines, List.filterMap_append]

theorem runStream_eq (parse : List Char → Option Json)
    (chunks : List (List Char)) :
    runStream parse chunks = framesOf parse chunks := by
  unfold runStream framesOf
  rw [foldl_chunkStep parse chunks [] [] (by simp)]
  simp

/-- Claim C2: for every raw SSE text stream and every partition of it into
successive chunks, feeding the chunks one at a time through the
buffer-and-split reassembly loop produces exactly the same callback/event
sequence as feeding the entire stream as a single chunk. -/
theorem c2_chunk_invariance (parse : List Char → Option Json)
    (chunks : List (List Char)) :
    runStream parse chunks = runStream parse [chunks.flatten] := by
  rw [runStream_eq, runStream_eq]
  unfold framesOf
  simp

/-- Claim C9: a stream whose raw text ends without a final line terminator
behaves exactly like the stream truncated at its last complete line: the
trailing non-terminated buffer is discarded at end-of-stream, producing no
event and no error callback. -/
theorem c9_trailing_discarded (parse : List Char → Option Json)
    (u t : List Char) (h : ∀ c ∈ t, c ≠ '\n') :
    runStream parse [u ++ t] = runStream parse [u] := by
  rw [runStream_eq, runStream_eq]
  unfold framesOf
  simp only [List.flatten_cons, List.flatten_nil, List.append_nil]
  rw [lineSplit_append u t]
  have hnl : ∀ c ∈ (lineSplit u).2 ++ t, c ≠ '\n' := by
    intro c hc
    rcases List.mem_append.mp hc with hc | hc
    · exact noNl_lineSplit_snd u c hc
    · exact h c hc
  rw [lineSplit_noNl hnl]
  simp [dispatchLines]

/-- Witness for C9 at a concrete stream: one terminated `user_message`
frame followed by a truncated line. -/
theorem c9_witness :
    runStream demoParse [(frameLine txtUM).data ++ ("data: tail").data] =
      runStream demoParse [(frameLine txtUM).data] :=
  c9_trailing_discarded demoParse (frameLine txtUM).data
    (("data: tail").data) (by decide)

/-- Claim C10: a data line whose trimmed payload is the literal `[DONE]`
sentinel produces no event and no callback, and it does not terminate
dispatch: frames after the sentinel are still parsed and dispatched. -/
theorem c10_done_sentinel (parse : List Char → Option Json)
    (pre post : List (List Char)) :
    processLine parse (String.data "data: [DONE]") = none ∧
      dispatchLines parse (pre ++ (String.data "data: [DONE]") :: post) =
        dispatchLines parse pre ++ dispatchLines parse post := by
  have h1 : dataMarker.isPrefixOf (String.data "data: [DONE]") = true := by
    decide
  have h2 : payloadOf (String.data "data: [DONE]") = doneTok := by decide
  have hp : processLine parse (String.data "data: [DONE]") = none := by
    simp [processLine, h1, h2, handleData]
  exact ⟨hp, by simp [dispatchLines, List.filterMap_append, hp]⟩

theorem recognize_none_of_unrecognized (j : Json)
    (h : recognizedKind j = false) : recognize j = none := by
  unfold recognize
  unfold recognizedKind at h
  cases hev : getField j "event" with
  | none => rfl
  | some v =>
    cases v with
    | null => rfl
    | bool b => rfl
    | num n => rfl
    | obj fs => rfl
    | str k =>
      rw [hev] at h
      simp only [Bool.or_eq_false_iff, beq_eq_false_iff_ne, ne_eq] at h
      simp [h.1.1.1.1, h.1.1.1.2, h.1.1.2, h.1.2, h.2]

/-- Claim C6: a frame whose payload is unparsable JSON, or whose envelope
kind is not one of the five recognized kinds, is skipped without any
callback and without aborting: the frames before and after it are still
dispatched. -/
theorem c6_malformed_skipped :
    (∀ (parse : List Char → Option Json) (line : List Char),
        parse (payloadOf line) = none → processLine parse line = none)
    ∧ (∀ (parse : List Char → Option Json) (line : List Char) (j : Json),
        parse (payloadOf line) = some j → recognizedKind j = false →
          processLine parse line = none)
    ∧ (∀ (parse : List Char → Option Json) (pre post : List (List Char))
        (bad : List Char), processLine parse bad = none →
          dispatchLines parse (pre ++ bad :: post) =
            dispatchLines parse pre ++ dispatchLines parse post) := by
  refine ⟨?_, ?_, ?_⟩
  · intro parse line hnone
    unfold processLine handleData
    by_cases h1 : dataMarker.isPrefixOf line
    · simp only [h1, if_true]
      by_cases h2 : payloadOf line = doneTok
      · simp [h2]
      · simp [h2, hnone]
    · simp [h1]
  · intro parse line j hsome hkind
    unfold processLine handleData
    by_cases h1 : dataMarker.isPrefixOf line
    · simp only [h1, if_true]
      by_cases h2 : payloadOf line = doneTok
      · simp [h2]
      · simp only [h2, if_false, hsome]
        exact recognize_none_of_unrecognized j hkind
    · simp [h1]
  · intro parse pre post bad hbad
    simp [dispatchLines, List.filterMap_append, hbad]

/-- Counterexample to Claim C1 as stated: a concrete stream satisfying the
stream invariant (at most one `user_message`, at most one terminal, at
most one `thinking` and only before the first `content`) whose frames are
a `content` frame followed by a `user_message` frame.  `sendMessageStream`
dispatches them in stream order, so the callbacks are not in the claimed
relative order (`user_message` before `content`), and no terminal callback
fires at all. -/
theorem c1_counterexample :
    wfB (framesOf demoParse cChunksC1) = true
    ∧ runStream demoParse cChunksC1 = framesOf demoParse cChunksC1
    ∧ ¬(monoB (runStream demoParse cChunksC1) = true
        ∧ (runStream demoParse cChunksC1).countP isTerminalCb = 1) := by
  refine ⟨by decide, runStream_eq demoParse cChunksC1, ?_⟩
  rw [runStream_eq demoParse cChunksC1]
  decide

/-- Claim C1 (amended): for every stream satisfying the stream invariant
whose frames moreover appear in the canonical relative order
`user_message`, `thinking`, `content`*, terminal and which contains a
terminal frame, `sendMessageStream` invokes exactly one callback per
frame, in the order of frames in the stream — hence in the canonical
relative order with exactly one terminal callback. -/
theorem c1_amended (parse : List Char → Option Json)
    (chunks : List (List Char))
    (hwf : wfB (framesOf parse chunks) = true)
    (hmono : monoB (framesOf parse chunks) = true)
    (hterm : (framesOf parse chunks).any isTerminalCb = true) :
    runStream parse chunks = framesOf parse chunks
    ∧ monoB (runStream parse chunks) = true
    ∧ (runStream parse chunks).countP isTerminalCb = 1 := by
  refine ⟨runStream_eq parse chunks, ?_, ?_⟩
  · rw [runStream_eq parse chunks]; exact hmono
  · rw [runStream_eq parse chunks]
    unfold wfB at hwf
    simp only [Bool.and_eq_true, decide_eq_true_eq] at hwf
    have hle : (framesOf parse chunks).countP isTerminalCb ≤ 1 := hwf.1.1.2
    have hpos : 0 < (framesOf parse chunks).countP isTerminalCb := by
      rw [List.countP_pos_iff]
      exact List.any_eq_true.mp hterm
    omega

/-- Witness for C1 at a concrete canonical stream (`user_message`,
`thinking`, `content`, `complete`) delivered as two chunks split inside
the `thinking` frame line. -/
theorem c1_witness :
    runStream demoParse wChunksC1 = framesOf demoParse wChunksC1
    ∧ monoB (runStream demoParse wChunksC1) = true
    ∧ (runStream demoParse wChunksC1).countP isTerminalCb = 1 :=
  c1_amended demoParse wChunksC1 (by decide) (by decide) (by decide)

theorem onContent_extend (tmp now text : String) (prev : List Message)
    (h1 : ∀ m ∈ prev, m.id = tmp → m.isThinking = false)
    (h2 : ∃ m ∈ prev, m.id = tmp) :
    onContent tmp now text prev =
      prev.map (fun m => if m.id == tmp
        then { m with content := m.content ++ text } else m) := by
  have hfe : prev.filter (fun m => !(m.id == tmp) || !m.isThinking) = prev := by
    apply List.filter_eq_self.mpr
    intro m hm
    by_cases hid : m.id = tmp
    · have := h1 m hm hid
      simp [this]
    · simp [hid]
  unfold onContent
  simp only [hfe]
  cases hf : prev.find? (fun m => m.id == tmp) with
  | none =>
    exfalso
    obtain ⟨m₀, hm₀, hid⟩ := h2
    have := List.find?_eq_none.mp hf m₀ hm₀
    simp [hid] at this
  | some m => rfl

theorem onContent_fresh (tmp now text : String) (prev : List Message)
    (h : ∀ m ∈ prev, m.id = tmp → m.isThinking = true) :
    onContent tmp now text prev =
      prev.filter (fun m => !(m.id == tmp) || !m.isThinking) ++
        [⟨tmp, .assistant, text, now, false⟩] := by
  unfold onContent
  have hf : (prev.filter
      (fun m => !(m.id == tmp) || !m.isThinking)).find?
        (fun m => m.id == tmp) = none := by
    apply List.find?_eq_none.mpr
    intro x hx
    have hmem := List.mem_filter.mp hx
    by_cases hid : x.id = tmp
    · have := h x hmem.1 hid
      rw [hid, this] at hmem
      simp at hmem
    · simp [hid]
  simp only [hf]

theorem onContent_concat (tmp now : String) (texts : List String) :
    ∀ prev : List Message,
      (∀ m ∈ prev, m.id = tmp → m.isThinking = false) →
      (∃ m ∈ prev, m.id = tmp) →
      texts.foldl (fun ms t => onContent tmp now t ms) prev =
        prev.map (fun m => if m.id == tmp
          then { m with content := m.content ++ joinS texts } else m) := by
  induction texts with
  | nil =>
    intro prev h1 h2
    have : (fun m : Message => if m.id == tmp
        then { m with content := m.content ++ joinS [] } else m) =
        fun m => m := by
      funext m
      by_cases hid : m.id == tmp
      · simp [hid, joinS, String.append_empty]
      · simp [hid]
    rw [List.foldl_nil, this]
    exact (List.map_id prev).symm
  | cons t ts ih =>
    intro prev h1 h2
    rw [List.foldl_cons, onContent_extend tmp now t prev h1 h2]
    have h1' : ∀ m ∈ prev.map (fun m => if m.id == tmp
        then { m with content := m.content ++ t } else m),
        m.id = tmp → m.isThinking = false := by
      intro m hm hid
      obtain ⟨m', hm', rfl⟩ := List.mem_map.mp hm
      by_cases h' : m'.id == tmp
      · simp only [h', if_true] at hid ⊢
        exact h1 m' hm' hid
      · simp only [h', if_false] at hid ⊢
        exact h1 m' hm' hid
    have h2' : ∃ m ∈ prev.map (fun m => if m.id == tmp
        then { m with content := m.content ++ t } else m), m.id = tmp := by
      obtain ⟨m₀, hm₀, hid⟩ := h2
      refine ⟨_, List.mem_map.mpr ⟨m₀, hm₀, rfl⟩, ?_⟩
      by_cases h' : m₀.id == tmp
      · simp [h', hid]
      · simp [h', hid]
    rw [ih _ h1' h2', List.map_map]
    apply List.map_congr_left
    intro m hm
    simp only [Function.comp]
    by_cases h' : m.id == tmp
    · simp [h', joinS, String.append_assoc]
    · simp [h']

/-- Claim C4: for every message list (with the presupposed unique
correlation of the temporary identifier): if a non-thinking message with
the temporary identifier exists, the `content` transition appends the
fragment to that message's content; otherwise it removes any `isThinking`
placeholder with the temporary identifier and appends a new assistant
message holding the fragment; and a sequence of `content` events
concatenates its fragments in arrival order. -/
theorem c4_content_transition :
    (∀ (tmp now text : String) (prev : List Message),
        (∀ m ∈ prev, m.id = tmp → m.isThinking = false) →
        (∃ m ∈ prev, m.id = tmp) →
        onContent tmp now text prev =
          prev.map (fun m => if m.id == tmp
            then { m with content := m.content ++ text } else m))
    ∧ (∀ (tmp now text : String) (prev : List Message),
        (∀ m ∈ prev, m.id = tmp → m.isThinking = true) →
        onContent tmp now text prev =
          prev.filter (fun m => !(m.id == tmp) || !m.isThinking) ++
            [⟨tmp, .assistant, text, now, false⟩])
    ∧ (∀ (tmp now : String) (texts : List String) (prev : List Message),
        (∀ m ∈ prev, m.id = tmp → m.isThinking = false) →
        (∃ m ∈ prev, m.id = tmp) →
        (runConsumer tmp now ⟨prev, none, true⟩
            (texts.map ChatEvent.content)).messages =
          prev.map (fun m => if m.id == tmp
            then { m with content := m.content ++ joinS texts } else m)) := by
  refine ⟨onContent_extend, onContent_fresh, ?_⟩
  intro tmp now texts prev h1 h2
  have hrun : ∀ (ms : List Message),
      runConsumer tmp now ⟨ms, none, true⟩ (texts.map ChatEvent.content) =
        ⟨texts.foldl (fun ms t => onContent tmp now t ms) ms, none, true⟩ := by
    clear h1 h2
    induction texts with
    | nil => intro ms; rfl
    | cons t ts ih =>
      intro ms
      simp only [List.map_cons, runConsumer, List.foldl_cons, consumerStep]
      exact ih (onContent tmp now t ms)
  rw [hrun prev, onContent_concat tmp now texts prev h1 h2]

/-- Witness for C4: the three conjuncts instantiated at concrete lists —
extending an existing streamed message, replacing a thinking placeholder,
and concatenating two fragments in order. -/
theorem c4_witness :
    onContent "temp-1" "T" "there"
        [⟨"m1", .user, "Hello", "T1", false⟩,
          ⟨"temp-1", .assistant, "Hi ", "T", false⟩] =
      [⟨"m1", .user, "Hello", "T1", false⟩,
        ⟨"temp-1", .assistant, "Hi there", "T", false⟩]
    ∧ onContent "temp-1" "T" "Hi "
        [⟨"temp-1", .assistant, "", "T", true⟩] =
      [⟨"temp-1", .assistant, "Hi ", "T", false⟩]
    ∧ (runConsumer "temp-1" "T"
        ⟨[⟨"temp-1", .assistant, "", "T", false⟩], none, true⟩
        ([" Hi ", "there"].map ChatEvent.content)).messages =
      [⟨"temp-1", .assistant, " Hi there", "T", false⟩] := by
  refine ⟨?_, ?_, ?_⟩
  · rw [c4_content_transition.1 "temp-1" "T" "there" _ (by decide) (by decide)]
    decide
  · rw [c4_content_transition.2.1 "temp-1" "T" "Hi " _ (by decide)]
    decide
  · rw [c4_content_transition.2.2 "temp-1" "T" [" Hi ", "there"] _
      (by decide) (by decide)]
    decide

theorem onContent_nonTmp (tmp now text : String) (prev : List Message) :
    (onContent tmp now text prev).filter (fun m => !(m.id == tmp)) =
      prev.filter (fun m => !(m.id == tmp)) := by
  have hff : (prev.filter (fun m => !(m.id == tmp) || !m.isThinking)).filter
      (fun m => !(m.id == tmp)) = prev.filter (fun m => !(m.id == tmp)) := by
    rw [List.filter_filter]
    apply List.filter_congr
    intro m _
    cases h : (m.id == tmp) <;> simp [h]
  unfold onContent
  cases hf : (prev.filter
      (fun m => !(m.id == tmp) || !m.isThinking)).find?
        (fun m => m.id == tmp) with
  | none =>
    simp only [hf, List.filter_append]
    have : ([(⟨tmp, .assistant, text, now, false⟩ : Message)]).filter
        (fun m => !(m.id == tmp)) = [] := by simp
    rw [this, List.append_nil, hff]
  | some m₀ =>
    simp only [hf]
    rw [List.filter_map]
    have hcomp : (prev.filter (fun m => !(m.id == tmp) || !m.isThinking)).filter
        ((fun m : Message => !(m.id == tmp)) ∘ (fun m =>
          if m.id == tmp then { m with content := m.content ++ text } else m)) =
        (prev.filter (fun m => !(m.id == tmp) || !m.isThinking)).filter
          (fun m => !(m.id == tmp)) := by
      apply List.filter_congr
      intro m _
      by_cases h : m.id = tmp <;> simp [h]
    rw [hcomp, hff]
    conv_rhs => rw [← List.map_id (prev.filter (fun m => !(m.id == tmp)))]
    apply List.map_congr_left
    intro m hm
    have h2 := (List.mem_filter.mp hm).2
    have hne : ¬ m.id = tmp := by
      intro h
      rw [h] at h2
      simp at h2
    simp [hne]

theorem userMsgsOf_mem (es : List ChatEvent) :
    ∀ m ∈ userMsgsOf es, m.role = Role.user ∧ m.isThinking = false := by
  intro m hm
  obtain ⟨e, _, hfe⟩ := List.mem_filterMap.mp hm
  cases e with
  | user_message d =>
    simp only [userMsgsOf] at hfe
    cases hfe
    exact ⟨rfl, rfl⟩
  | thinking => simp [userMsgsOf] at hfe
  | content t => simp [userMsgsOf] at hfe
  | complete d => simp [userMsgsOf] at hfe
  | error msg => simp [userMsgsOf] at hfe

theorem userMsgsOf_filter_content (es : List ChatEvent) :
    userMsgsOf (es.filter (fun e => !isContentEv e)) = userMsgsOf es := by
  induction es with
  | nil => rfl
  | cons e rest ih =>
    cases e <;> simp [userMsgsOf, isContentEv, List.filterMap_cons, List.filter_cons] <;>
      simpa [userMsgsOf] using ih

theorem runConsumer_nonTmp (tmp now : String) (es : List ChatEvent) :
    ∀ st : ConsumerState, (∀ e ∈ es, isTermEv e = false) →
      (runConsumer tmp now st es).messages.filter (fun m => !(m.id == tmp)) =
        st.messages.filter (fun m => !(m.id == tmp)) ++
          (userMsgsOf es).filter (fun m => !(m.id == tmp)) := by
  induction es with
  | nil =>
    intro st _
    simp [runConsumer, userMsgsOf]
  | cons e rest ih =>
    intro st hterm
    have hterm' : ∀ e' ∈ rest, isTermEv e' = false :=
      fun e' he' => hterm e' (List.mem_cons_of_mem e he')
    have hstep : runConsumer tmp now st (e :: rest) =
        runConsumer tmp now (consumerStep tmp now st e) rest := rfl
    rw [hstep, ih _ hterm']
    cases e with
    | user_message d =>
      simp only [consumerStep, onUserMessage, userMsgsOf, List.filterMap_cons]
      rw [List.filter_append]
      by_cases h : d.id == tmp <;>
        simp [h, List.filter_cons, List.append_assoc, userMsgsOf]
    | thinking =>
      simp only [consumerStep, onThinking, userMsgsOf, List.filterMap_cons]
      rw [List.filter_append]
      simp [userMsgsOf]
    | content t =>
      simp only [consumerStep]
      rw [onContent_nonTmp]
      simp [userMsgsOf, List.filterMap_cons]
    | complete d =>
      have := hterm _ (List.mem_cons_self _ _)
      simp [isTermEv] at this
    | error msg =>
      have := hterm _ (List.mem_cons_self _ _)
      simp [isTermEv] at this

theorem runConsumer_pres (tmp now : String) (es : List ChatEvent) :
    ∀ st : ConsumerState, (∀ e ∈ es, isTermEv e = false) →
      (runConsumer tmp now st es).errorMsg = st.errorMsg := by
  induction es with
  | nil => intro st _; rfl
  | cons e rest ih =>
    intro st hterm
    have hterm' : ∀ e' ∈ rest, isTermEv e' = false :=
      fun e' he' => hterm e' (List.mem_cons_of_mem e he')
    have hstep : runConsumer tmp now st (e :: rest) =
        runConsumer tmp now (consumerStep tmp now st e) rest := rfl
    rw [hstep, ih _ hterm']
    cases e with
    | user_message d => rfl
    | thinking => rfl
    | content t => rfl
    | complete d =>
      have := hterm _ (List.mem_cons_self _ _)
      simp [isTermEv] at this
    | error msg =>
      have := hterm _ (List.mem_cons_self _ _)
      simp [isTermEv] at this

/-- Counterexample to Claim C3 as stated: an initial list that contains no
message with the temporary identifier but does contain a non-temporary
`isThinking` assistant message whose content coincides with the final
content.  After the `complete` frame the final list holds two assistant
messages with that content and one `isThinking` message, contradicting the
claimed "exactly one" and "zero isThinking placeholders"; and since the
`complete` payload's server id happens to equal the temporary identifier,
the final list also retains a message with the temporary identifier. -/
theorem c3_counterexample :
    (∀ m ∈ cexInit.messages, m.id ≠ "temp-1")
    ∧ ¬((((runConsumer "temp-1" "T" cexInit
            [.complete cexComplete]).messages.filter
          (fun m => isAsst m && m.content == cexComplete.content)).length = 1)
        ∧ ((runConsumer "temp-1" "T" cexInit
            [.complete cexComplete]).messages.all
            (fun m => !(m.id == "temp-1")) = true)
        ∧ ((runConsumer "temp-1" "T" cexInit
            [.complete cexComplete]).messages.all
            (fun m => !m.isThinking) = true)) := by
  exact ⟨by decide, by decide⟩

/-- Claim C3 (amended): for every well-formed frame sequence ending in a
`complete` frame, applied to an initial list containing no message with
the temporary identifier, no `isThinking` message, and no assistant
message whose content equals the `complete` content (and with the final
payload's server id distinct from the temporary identifier), the final
list contains exactly one assistant message with the `complete` content,
zero temporary-identifier messages and zero `isThinking` placeholders, and
the accumulated `content` fragments are discarded: the outcome equals that
of the same run with all `content` frames removed. -/
theorem c3_amended (tmp now : String) (init : ConsumerState)
    (body : List ChatEvent) (d : SrvMsg)
    (hTmp : ∀ m ∈ init.messages, m.id ≠ tmp)
    (hThink : ∀ m ∈ init.messages, m.isThinking = false)
    (hAsst : ∀ m ∈ init.messages, isAsst m = true → m.content ≠ d.content)
    (hd : d.id ≠ tmp)
    (hBody : ∀ e ∈ body, isTermEv e = false) :
    (((runConsumer tmp now init (body ++ [.complete d])).messages.filter
        (fun m => isAsst m && m.content == d.content)).length = 1)
    ∧ ((runConsumer tmp now init (body ++ [.complete d])).messages.all
        (fun m => !(m.id == tmp)) = true)
    ∧ ((runConsumer tmp now init (body ++ [.complete d])).messages.all
        (fun m => !m.isThinking) = true)
    ∧ runConsumer tmp now init (body ++ [.complete d]) =
        runConsumer tmp now init
          (body.filter (fun e => !isContentEv e) ++ [.complete d]) := by
  have hsplit : ∀ es : List ChatEvent,
      runConsumer tmp now init (es ++ [ChatEvent.complete d]) =
        consumerStep tmp now (runConsumer tmp now init es)
          (.complete d) := by
    intro es
    unfold runConsumer
    rw [List.foldl_append]
    rfl
  have hinit : init.messages.filter (fun m => !(m.id == tmp)) =
      init.messages :=
    List.filter_eq_self.mpr (fun m hm => by simp [hTmp m hm])
  have hmsgs : ∀ es, (∀ e ∈ es, isTermEv e = false) →
      (runConsumer tmp now init (es ++ [ChatEvent.complete d])).messages =
        (init.messages ++
          (userMsgsOf es).filter (fun m => !(m.id == tmp))) ++
          [⟨d.id, .assistant, d.content, d.timestamp, false⟩] := by
    intro es hes
    rw [hsplit es]
    show onComplete tmp d (runConsumer tmp now init es).messages = _
    unfold onComplete
    rw [runConsumer_nonTmp tmp now es init hes, hinit]
  refine ⟨?_, ?_, ?_, ?_⟩
  · rw [hmsgs body hBody, List.filter_append, List.filter_append]
    have e1 : init.messages.filter
        (fun m => isAsst m && m.content == d.content) = [] := by
      rw [List.filter_eq_nil_iff]
      intro m hm
      simp only [Bool.and_eq_true, beq_iff_eq, not_and]
      intro ha hc
      exact hAsst m hm ha hc
    have e2 : (((userMsgsOf body).filter
        (fun m => !(m.id == tmp))).filter
          (fun m => isAsst m && m.content == d.content)) = [] := by
      rw [List.filter_eq_nil_iff]
      intro m hm
      have hrole := (userMsgsOf_mem body m (List.mem_filter.mp hm).1).1
      simp [isAsst, hrole]
    rw [e1, e2]
    simp [isAsst]
  · rw [hmsgs body hBody]
    simp only [List.all_append, Bool.and_eq_true]
    refine ⟨⟨?_, ?_⟩, ?_⟩
    · rw [List.all_eq_true]
      intro m hm
      simp [hTmp m hm]
    · rw [List.all_eq_true]
      intro m hm
      exact (List.mem_filter.mp hm).2
    · simp [hd]
  · rw [hmsgs body hBody]
    simp only [List.all_append, Bool.and_eq_true]
    refine ⟨⟨?_, ?_⟩, ?_⟩
    · rw [List.all_eq_true]
      intro m hm
      simp [hThink m hm]
    · rw [List.all_eq_true]
      intro m hm
      have := (userMsgsOf_mem body m (List.mem_filter.mp hm).1).2
      simp [this]
    · simp
  · have hBody' : ∀ e ∈ body.filter (fun e => !isContentEv e),
        isTermEv e = false :=
      fun e he => hBody e (List.mem_filter.mp he).1
    have h1 := hmsgs body hBody
    have h2 := hmsgs (body.filter (fun e => !isContentEv e)) hBody'
    rw [userMsgsOf_filter_content] at h2
    have herr1 : (runConsumer tmp now init
        (body ++ [ChatEvent.complete d])).errorMsg = init.errorMsg := by
      rw [hsplit body]
      show (runConsumer tmp now init body).errorMsg = _
      exact runConsumer_pres tmp now body init hBody
    have herr2 : (runConsumer tmp now init
        (body.filter (fun e => !isContentEv e) ++
          [ChatEvent.complete d])).errorMsg = init.errorMsg := by
      rw [hsplit _]
      show (runConsumer tmp now init
        (body.filter (fun e => !isContentEv e))).errorMsg = _
      exact runConsumer_pres tmp now _ init hBody'
    have hstr1 : (runConsumer tmp now init
        (body ++ [ChatEvent.complete d])).isStreaming = false := by
      rw [hsplit body]
      rfl
    have hstr2 : (runConsumer tmp now init
        (body.filter (fun e => !isContentEv e) ++
          [ChatEvent.complete d])).isStreaming = false := by
      rw [hsplit _]
      rfl
    have hext : ∀ (s₁ s₂ : ConsumerState), s₁.messages = s₂.messages →
        s₁.errorMsg = s₂.errorMsg → s₁.isStreaming = s₂.isStreaming →
        s₁ = s₂ := by
      intro s₁ s₂ ha hb hc
      cases s₁
      cases s₂
      cases ha
      cases hb
      cases hc
      rfl
    exact hext _ _ (h1.trans h2.symm) (herr1.trans herr2.symm)
      (hstr1.trans hstr2.symm)

/-- Witness for C3 at the specification's scenario: sending `Hello` and
streaming `Hi `, `there`, then `complete` with `Hi there`, starting from
an empty list. -/
theorem c3_witness :
    (((runConsumer "temp-1" "T" ⟨[], none, true⟩
        (wBodyC3 ++ [.complete wCompC3])).messages.filter
        (fun m => isAsst m && m.content == wCompC3.content)).length = 1)
    ∧ ((runConsumer "temp-1" "T" ⟨[], none, true⟩
        (wBodyC3 ++ [.complete wCompC3])).messages.all
        (fun m => !(m.id == "temp-1")) = true)
    ∧ ((runConsumer "temp-1" "T" ⟨[], none, true⟩
        (wBodyC3 ++ [.complete wCompC3])).messages.all
        (fun m => !m.isThinking) = true)
    ∧ runConsumer "temp-1" "T" ⟨[], none, true⟩
          (wBodyC3 ++ [.complete wCompC3]) =
        runConsumer "temp-1" "T" ⟨[], none, true⟩
          (wBodyC3.filter (fun e => !isContentEv e) ++
            [.complete wCompC3]) :=
  c3_amended "temp-1" "T" ⟨[], none, true⟩ wBodyC3 wCompC3
    (by decide) (by decide) (by decide) (by decide) (by decide)

/-- Claim C5: for every frame sequence ending in an `error` frame,
whatever came before, the Consumer's final state has zero messages with
the temporary identifier and the error is surfaced to the error state
(and the pending send is settled). -/
theorem c5_error_rollback (tmp now : String) (st : ConsumerState)
    (es : List ChatEvent) (msg : String) :
    ((runConsumer tmp now st (es ++ [.error msg])).messages.all
        (fun m => !(m.id == tmp)) = true)
    ∧ (runConsumer tmp now st (es ++ [.error msg])).errorMsg =
        some ("Failed to send message: " ++ msg)
    ∧ (runConsumer tmp now st (es ++ [.error msg])).isStreaming = false := by
  unfold runConsumer
  rw [List.foldl_append]
  refine ⟨?_, rfl, rfl⟩
  simp only [List.foldl_cons, List.foldl_nil, consumerStep, onError]
  rw [List.all_eq_true]
  intro m hm
  exact (List.mem_filter.mp hm).2

/-- Claim C7: if the handle is aborted before the terminal event, no
terminal callback ever fires, unprocessed frames are discarded, and
cancellation is not surfaced through the error callback; a
cancellation-induced transport failure produces no callback at all, while
a non-cancellation transport failure before any frame fires the error
callback with the transport failure's message. -/
theorem c7_abort_semantics :
    (∀ (parse : List Char → Option Json) (t : TransportRun) (k : Nat),
        k < t.chunks.length →
        (runStream parse (t.chunks.take k)).all
            (fun c => !isTerminalCb c) = true →
        sendMessageStreamRun parse (abortAt t k) =
            runStream parse (t.chunks.take k)
          ∧ (sendMessageStreamRun parse (abortAt t k)).any
              isTerminalCb = false)
    ∧ (∀ (parse : List Char → Option Json) (e : JsError),
        e.name = "AbortError" →
          sendMessageStreamRun parse ⟨[], some e⟩ = [])
    ∧ (∀ (parse : List Char → Option Json) (e : JsError),
        e.name ≠ "AbortError" →
          sendMessageStreamRun parse ⟨[], some e⟩ =
            [.error (some (errPayload e.message))]) := by
  refine ⟨?_, ?_, ?_⟩
  · intro parse t k hk hall
    have habort : abortAt t k = ⟨t.chunks.take k, some abortErr⟩ := by
      unfold abortAt
      rw [if_pos hk]
    have heq : sendMessageStreamRun parse (abortAt t k) =
        runStream parse (t.chunks.take k) := by
      rw [habort]
      unfold sendMessageStreamRun
      simp [abortErr]
    refine ⟨heq, ?_⟩
    rw [heq]
    rw [List.all_eq_true] at hall
    rw [List.any_eq_false]
    intro c hc
    have := hall c hc
    simpa using this
  · intro parse e he
    unfold sendMessageStreamRun
    simp [he, runStream, dispatchLines]
  · intro parse e he
    unfold sendMessageStreamRun
    simp [he, runStream, dispatchLines]

/-- Witness for C7: aborting `wRunC7` after its first chunk (only the
`user_message` frame processed) yields exactly that frame's callback and
no terminal callback; a cancellation rejection produces no callback; a
genuine network failure produces one error callback. -/
theorem c7_witness :
    (sendMessageStreamRun demoParse (abortAt wRunC7 1) =
        runStream demoParse (wRunC7.chunks.take 1)
      ∧ (sendMessageStreamRun demoParse (abortAt wRunC7 1)).any
          isTerminalCb = false)
    ∧ sendMessageStreamRun demoParse ⟨[], some abortErr⟩ = []
    ∧ sendMessageStreamRun demoParse ⟨[], some ⟨"TypeError", "Failed to fetch"⟩⟩ =
        [.error (some (errPayload "Failed to fetch"))] :=
  ⟨c7_abort_semantics.1 demoParse wRunC7 1 (by decide) (by decide),
    c7_abort_semantics.2.1 demoParse abortErr (by decide),
    c7_abort_semantics.2.2 demoParse ⟨"TypeError", "Failed to fetch"⟩
      (by decide)⟩

/-- Claim C8: `abort()` is idempotent — a second (later) abort call on an
already-aborted handle changes nothing, aborting after natural completion
is a no-op, and repeated aborts never add or duplicate a callback. -/
theorem c8_abort_idempotent :
    (∀ (t : TransportRun) (k n : Nat), k ≤ n →
        abortAt (abortAt t k) n = abortAt t k)
    ∧ (∀ (t : TransportRun) (k : Nat), t.chunks.length ≤ k →
        abortAt t k = t)
    ∧ (∀ (parse : List Char → Option Json) (t : TransportRun) (k n : Nat),
        k ≤ n →
          sendMessageStreamRun parse (abortAt (abortAt t k) n) =
            sendMessageStreamRun parse (abortAt t k)) := by
  have h1 : ∀ (t : TransportRun) (k n : Nat), k ≤ n →
      abortAt (abortAt t k) n = abortAt t k := by
    intro t k n hkn
    unfold abortAt
    by_cases hk : k < t.chunks.length
    · rw [if_pos hk]
      have hlen : (t.chunks.take k).length = k := by
        rw [List.length_take]
        omega
      have : ¬ n < (⟨t.chunks.take k, some abortErr⟩ : TransportRun).chunks.length := by
        simp only [hlen]
        omega
      rw [if_neg this]
    · rw [if_neg hk, if_neg (by omega)]
  refine ⟨h1, ?_, ?_⟩
  · intro t k hk
    unfold abortAt
    rw [if_neg (by omega)]
  · intro parse t k n hkn
    rw [h1 t k n hkn]

/-- Witness for C8: double abort of the concrete run `wRunC7` at chunk 1
equals a single abort, and aborting at the chunk count (natural end) is a
no-op. -/
theorem c8_witness :
    abortAt (abortAt wRunC7 1) 1 = abortAt wRunC7 1
    ∧ abortAt wRunC7 2 = wRunC7
    ∧ sendMessageStreamRun demoParse (abortAt (abortAt wRunC7 1) 1) =
        sendMessageStreamRun demoParse (abortAt wRunC7 1) :=
  ⟨c8_abort_idempotent.1 wRunC7 1 1 (by decide),
    c8_abort_idempotent.2.1 wRunC7 2 (by decide),
    c8_abort_idempotent.2.2 demoParse wRunC7 1 1 (by decide)⟩

/-- Witness for C6 at concrete inputs: a malformed frame and an unknown
`ping` frame, each between valid frames, are skipped while their
neighbours dispatch. -/
theorem c6_witness :
    dispatchLines demoParse ([dlUM] ++ dlBad :: [dlC1]) =
        dispatchLines demoParse [dlUM] ++ dispatchLines demoParse [dlC1]
    ∧ dispatchLines demoParse ([dlC1] ++ dlPing :: [dlComp]) =
        dispatchLines demoParse [dlC1] ++ dispatchLines demoParse [dlComp] :=
  ⟨c6_malformed_skipped.2.2 demoParse [dlUM] [dlC1] dlBad
      (c6_malformed_skipped.1 demoParse dlBad (by decide)),
    c6_malformed_skipped.2.2 demoParse [dlC1] [dlComp] dlPing
      (c6_malformed_skipped.2.1 demoParse dlPing jPing (by decide)
        (by decide))⟩
